import Mathlib

/-!
Verification of the collection scanner of the Strawberry music player
(`src/collection/collectionwatcher.cpp`), shallowly embedded in Lean.

Paths, URLs (in their `toLocalFile` form) and art locations are modelled as
`String`; epoch-second mtimes (`QDateTime::toTime_t`, an unsigned 32-bit
value) as `Nat`; the descriptive tag fields of a `Song` (title, artist,
album, ..., bitdepth) that `Song::IsMetadataEqual` compares memberwise are
collapsed into one opaque `meta` field, while the fields the scanner
manipulates individually (id, url, beginning offset, mtime, availability,
cue path, art, user data) are kept separate.

External collaborators (filesystem probe, tag reader, cue parser, persistent
store backend, Unicode normalizer) are modelled as an `Env` of functions;
every call the scanner makes that has an observable effect (signal
emissions, watch management, progress reports, blocking collaborator calls)
is recorded in an `Eff` trace.
-/

namespace Strawberry

/-! ## Character-list string helpers

`QString::section`, `QString::left(lastIndexOf(..))`, `QFileInfo::fileName`
and case-insensitive `QString::contains` are modelled by structural
recursion over the character list of the string, so that they evaluate
inside the kernel. -/

/-- Split a character list at every occurrence of `sep` (auxiliary, carries
the current chunk in reverse). -/
def splitCharAux (sep : Char) : List Char → List Char → List (List Char)
  | [], acc => [acc.reverse]
  | c :: rest, acc =>
    if c = sep then acc.reverse :: splitCharAux sep rest []
    else splitCharAux sep rest (c :: acc)

/-- Split a character list at every occurrence of `sep`. -/
def splitOnChar (sep : Char) (l : List Char) : List (List Char) :=
  splitCharAux sep l []

/-- Join chunks with a separator character. -/
def joinChar (sep : Char) : List (List Char) → List Char
  | [] => []
  | [p] => p
  | p :: rest => p ++ sep :: joinChar sep rest

/-- `QString::section(sep, 0, -2)`: everything up to (excluding) the last
separator; the empty string when the separator does not occur. -/
def sectionUpToLast (sep : Char) (s : String) : String :=
  ⟨joinChar sep ((splitOnChar sep s.data).dropLast)⟩

/-- `QString::left(s.lastIndexOf(sep))`: everything before the last
separator; `QString::left(-1)` returns the whole string when the separator
does not occur. -/
def leftOfLast (sep : Char) (s : String) : String :=
  if (splitOnChar sep s.data).length ≤ 1 then s else sectionUpToLast sep s

/-- `QFileInfo::fileName`: the part after the last `/`. -/
def fileNamePart (s : String) : String :=
  ⟨(splitOnChar '/' s.data).getLastD []⟩

/-- Does `hay` contain `pat` as a contiguous run (Qt `QString::contains`)? -/
def containsSub (pat : List Char) : List Char → Bool
  | [] => pat.isEmpty
  | c :: rest => pat.isPrefixOf (c :: rest) || containsSub pat rest

/-- Case-insensitive `QString::contains` (ASCII case folding). -/
def strContainsCI (s pat : String) : Bool :=
  containsSub (pat.data.map Char.toLower) (s.data.map Char.toLower)

/-- `a.startsWith b` on local paths (`QString::startsWith`). -/
def strStartsWith (s p : String) : Bool :=
  p.data.isPrefixOf s.data

/-- `QString::isEmpty`. -/
def strIsEmpty (s : String) : Bool :=
  s.data.isEmpty

/-- Modelled from the spec: `core/utilities.h` (not among the provided
sources) `ExtensionPart(f)` — the filename's extension, lowercased:
`f.mid(f.lastIndexOf('.') + 1).toLower()`. -/
def ExtensionPart (f : String) : String :=
  ⟨((splitOnChar '.' f.data).getLastD []).map Char.toLower⟩

/-- Modelled from the spec: `core/utilities.h` (not among the provided
sources) `NoExtensionPart(f)` — everything before the last dot, the empty
string when the name has no dot (`f.section('.', 0, -2)`). -/
def NoExtensionPart (f : String) : String :=
  sectionUpToLast '.' f

/-- Modelled from the spec: `core/utilities.h` (not among the provided
sources) `DirectoryPart(f)` — the containing directory,
`f.section('/', 0, -2)`. -/
def DirectoryPart (f : String) : String :=
  sectionUpToLast '/' f

/-! ## Data model -/

/-- `Song::kEmbeddedCover` (`song.cpp`): sentinel art path marking an
embedded cover. -/
def kEmbeddedCover : String := "(embedded)"

/-- Scanner-relevant subset of `Song` (`core/song.cpp`).  `meta` collapses
the descriptive tag fields compared memberwise by `IsMetadataEqual`
(title, album, artist, ..., bitdepth); the default values follow
`Song::Private::Private`. -/
structure Song where
  valid : Bool := false
  id : Int := -1
  source : Nat := 0
  directory_id : Int := -1
  url : String := ""
  beginning : Nat := 0
  mtime : Nat := 0
  unavailable : Bool := false
  cue_path : String := ""
  art_automatic : String := ""
  art_manual : String := ""
  playcount : Nat := 0
  skipcount : Nat := 0
  lastplayed : Int := -1
  meta : String := ""
deriving Repr, DecidableEq

/-- `Song::has_cue`: non-empty cue path. -/
def Song.hasCue (s : Song) : Bool :=
  !(strIsEmpty s.cue_path)

/-- `Song::has_embedded_cover`: the automatic art path is the embedded-cover
sentinel. -/
def Song.hasEmbeddedCover (s : Song) : Bool :=
  s.art_automatic == kEmbeddedCover

/-- `Song::IsMetadataEqual` (`song.cpp`): the descriptive tag fields
(collapsed into `meta`), the beginning offset, both art fields and the cue
path. -/
def IsMetadataEqual (a b : Song) : Bool :=
  a.meta == b.meta && a.beginning == b.beginning &&
  a.art_automatic == b.art_automatic && a.art_manual == b.art_manual &&
  a.cue_path == b.cue_path

/-- `Song::MergeUserSetData`: carry play count, skip count, last-played and
manual art over from `other`. -/
def MergeUserSetData (out other : Song) : Song :=
  { out with playcount := other.playcount, skipcount := other.skipcount,
             lastplayed := other.lastplayed, art_manual := other.art_manual }

/-- One watched root (`directory.h`). -/
structure Directory where
  id : Int
  path : String
deriving Repr, DecidableEq

/-- A known subdirectory record (`directory.h`); `mtime = 0` is the sentinel
for "previously deleted". -/
structure Subdirectory where
  directory_id : Int
  path : String
  mtime : Nat
deriving Repr, DecidableEq

/-- Filesystem information for one existing path (`QFileInfo`). -/
structure FSEntry where
  isDir : Bool := false
  isHidden : Bool := false
  mtime : Nat := 0
  isSymLink : Bool := false
  symLinkTarget : String := ""
deriving Repr, DecidableEq

/-- External collaborators of the scanner: filesystem probe, image loader,
blocking tag reader, cue-sheet parser, Unicode NFD normalizer and the
persistent store backend. -/
structure Env where
  stat : String → Option FSEntry
  listing : String → List String
  imageSize : String → Option (Nat × Nat)
  readFile : String → Song
  isMediaFile : String → Bool
  cueLoad : String → String → List Song
  nfd : String → String
  findSongsInDirectory : Int → List Song
  subdirsInDirectory : Int → List Subdirectory
  getSongsByUrl : String → List Song

/-- `QFileInfo::exists`. -/
def fsExists (e : Env) (p : String) : Bool :=
  (e.stat p).isSome

/-- `QFileInfo::lastModified().toTime_t()`: `(uint)-1` for an invalid
date-time (nonexistent path). -/
def fsMtime (e : Env) (p : String) : Nat :=
  match e.stat p with
  | none => 4294967295
  | some i => i.mtime

/-- `QFileInfo::isDir` (false for a nonexistent path). -/
def fsIsDir (e : Env) (p : String) : Bool :=
  ((e.stat p).map FSEntry.isDir).getD false

/-- `QFileInfo::isHidden` (false for a nonexistent path). -/
def fsIsHidden (e : Env) (p : String) : Bool :=
  ((e.stat p).map FSEntry.isHidden).getD false

/-- `QFileInfo::isSymLink`. -/
def fsIsSymLink (e : Env) (p : String) : Bool :=
  ((e.stat p).map FSEntry.isSymLink).getD false

/-- `QFileInfo::symLinkTarget`. -/
def fsSymLinkTarget (e : Env) (p : String) : String :=
  ((e.stat p).map FSEntry.symLinkTarget).getD ""

/-- Configuration and cross-transaction state of `CollectionWatcher` that
the scan reads: the stop flag, monitoring/live-scanning/prevent-delete
settings, the watched root directories, the song source and the configured
best-image filter order. -/
structure Watcher where
  source : Nat := 0
  stop_requested : Bool := false
  monitor : Bool := true
  live_scanning : Bool := false
  prevent_delete : Bool := false
  watched_dirs : List (Int × Directory) := []
  best_image_filters : List String := []

/-- `watched_dirs_.contains(dir)`. -/
def wdContains (w : Watcher) (dir : Int) : Bool :=
  (w.watched_dirs.find? (fun p => p.1 == dir)).isSome

/-- `sValidImages`: the recognized album-art extensions. -/
def sValidImages : List String := ["jpg", "png", "gif", "jpeg"]

/-! ## Observable effects

Every signal emission, watch-management call, progress report and blocking
collaborator call the scanner performs, in order. -/

inductive Eff where
  | newOrUpdatedSongs (songs : List Song)
  | songsMTimeUpdated (songs : List Song)
  | songsDeleted (songs : List Song)
  | songsReadded (songs : List Song)
  | subdirsDiscovered (subdirs : List Subdirectory)
  | subdirsMTimeUpdated (subdirs : List Subdirectory)
  | removeWatch (dir : Int) (path : String)
  | addWatch (dir : Int) (path : String)
  | setTaskProgress (taskId progress progressMax : Nat)
  | setTaskFinished (taskId : Nat)
  | listDir (path : String)
  | readTags (file : String)
  | isMediaFileCheck (file : String)
  | loadCue (cuePath : String)
deriving Repr, DecidableEq

/-! ## Scan Transaction -/

/-- `CollectionWatcher::ScanTransaction`: per-walk pending-mutation buffers,
progress counters and the lazily fetched store snapshots. -/
structure ScanTransaction where
  task_id : Nat := 0
  progress : Nat := 0
  progress_max : Nat := 0
  dir : Int
  incremental : Bool
  ignores_mtime : Bool
  prevent_delete : Bool
  cached_songs_dirty : Bool := true
  cached_songs : List Song := []
  known_subdirs_dirty : Bool := true
  known_subdirs : List Subdirectory := []
  new_songs : List Song := []
  touched_songs : List Song := []
  deleted_songs : List Song := []
  readded_songs : List Song := []
  new_subdirs : List Subdirectory := []
  touched_subdirs : List Subdirectory := []
  deleted_subdirs : List Subdirectory := []
deriving Repr, DecidableEq

/-- `ScanTransaction::AddToProgress`. -/
def AddToProgress (t : ScanTransaction) (n : Nat) : ScanTransaction × List Eff :=
  let t := { t with progress := t.progress + n }
  (t, [Eff.setTaskProgress t.task_id t.progress t.progress_max])

/-- `ScanTransaction::AddToProgressMax`. -/
def AddToProgressMax (t : ScanTransaction) (n : Nat) : ScanTransaction × List Eff :=
  let t := { t with progress_max := t.progress_max + n }
  (t, [Eff.setTaskProgress t.task_id t.progress t.progress_max])

/-- The new-songs emit-and-clear block of `CommitNewOrUpdatedSongs`. -/
def commitNewSongs (t : ScanTransaction) : ScanTransaction × List Eff :=
  if t.new_songs.isEmpty then (t, [])
  else ({ t with new_songs := [] }, [Eff.newOrUpdatedSongs t.new_songs])

/-- The touched-songs emit-and-clear block of `CommitNewOrUpdatedSongs`. -/
def commitTouchedSongs (t : ScanTransaction) : ScanTransaction × List Eff :=
  if t.touched_songs.isEmpty then (t, [])
  else ({ t with touched_songs := [] }, [Eff.songsMTimeUpdated t.touched_songs])

/-- The deleted-songs emit-and-clear block of `CommitNewOrUpdatedSongs`
(emits and clears only when the buffer is non-empty and prevent-delete is
unset). -/
def commitDeletedSongs (t : ScanTransaction) : ScanTransaction × List Eff :=
  if !t.deleted_songs.isEmpty && !t.prevent_delete then
    ({ t with deleted_songs := [] }, [Eff.songsDeleted t.deleted_songs])
  else (t, [])

/-- The readded-songs emit-and-clear block of `CommitNewOrUpdatedSongs`. -/
def commitReaddedSongs (t : ScanTransaction) : ScanTransaction × List Eff :=
  if t.readded_songs.isEmpty then (t, [])
  else ({ t with readded_songs := [] }, [Eff.songsReadded t.readded_songs])

/-- The touched-subdirs emit-and-clear block of `CommitNewOrUpdatedSongs`. -/
def commitTouchedSubdirs (t : ScanTransaction) : ScanTransaction × List Eff :=
  if t.touched_subdirs.isEmpty then (t, [])
  else ({ t with touched_subdirs := [] }, [Eff.subdirsMTimeUpdated t.touched_subdirs])

/-- `ScanTransaction::CommitNewOrUpdatedSongs`: flush the pending buffers as
batched signals, remove watches for deleted subdirectories, and (when
monitoring) add watches for newly discovered ones.  The new-subdirs buffer
is emitted before the touched-subdirs batch but cleared only at the very
end, after the watch-addition loop. -/
def CommitNewOrUpdatedSongs (w : Watcher) (t : ScanTransaction) :
    ScanTransaction × List Eff :=
  let (t, e1) := commitNewSongs t
  let (t, e2) := commitTouchedSongs t
  let (t, e3) := commitDeletedSongs t
  let (t, e4) := commitReaddedSongs t
  let e5 :=
    if t.new_subdirs.isEmpty then []
    else [Eff.subdirsDiscovered t.new_subdirs]
  let (t, e6) := commitTouchedSubdirs t
  let e7 := t.deleted_subdirs.filterMap fun sd =>
    if wdContains w t.dir then some (Eff.removeWatch t.dir sd.path) else none
  let t := { t with deleted_subdirs := [] }
  let e8 :=
    if w.monitor then
      t.new_subdirs.filterMap fun sd =>
        if wdContains w t.dir then some (Eff.addWatch t.dir sd.path) else none
    else []
  let t := { t with new_subdirs := [] }
  (t, e1 ++ e2 ++ e3 ++ e4 ++ e5 ++ e6 ++ e7 ++ e8)

/-- `ScanTransaction::~ScanTransaction`: commit unless a stop was requested,
then always mark the progress task finished. -/
def scanTransactionEnd (w : Watcher) (t : ScanTransaction) :
    ScanTransaction × List Eff :=
  let (t, evs) := if w.stop_requested then (t, []) else CommitNewOrUpdatedSongs w t
  (t, evs ++ [Eff.setTaskFinished t.task_id])

/-- `ScanTransaction::FindSongsInSubdirectory`: lazily fetch and cache the
store's songs for this transaction's directory, then filter to the songs
whose file sits immediately in `path`. -/
def FindSongsInSubdirectory (e : Env) (t : ScanTransaction) (path : String) :
    List Song × ScanTransaction :=
  let t :=
    if t.cached_songs_dirty then
      { t with cached_songs := e.findSongsInDirectory t.dir, cached_songs_dirty := false }
    else t
  (t.cached_songs.filter fun s => sectionUpToLast '/' s.url == path, t)

/-- `ScanTransaction::SetKnownSubdirs`. -/
def SetKnownSubdirs (t : ScanTransaction) (subdirs : List Subdirectory) :
    ScanTransaction :=
  { t with known_subdirs := subdirs, known_subdirs_dirty := false }

/-- `ScanTransaction::HasSeenSubdir`: lazily fetch the known subdirectories,
then look for a matching path with nonzero mtime. -/
def HasSeenSubdir (e : Env) (t : ScanTransaction) (path : String) :
    Bool × ScanTransaction :=
  let t :=
    if t.known_subdirs_dirty then SetKnownSubdirs t (e.subdirsInDirectory t.dir)
    else t
  (t.known_subdirs.any fun sd => sd.path == path && sd.mtime != 0, t)

/-- `ScanTransaction::GetImmediateSubdirs`: the known subdirectories whose
parent is `path`, excluding previously deleted ones (mtime 0). -/
def GetImmediateSubdirs (e : Env) (t : ScanTransaction) (path : String) :
    List Subdirectory × ScanTransaction :=
  let t :=
    if t.known_subdirs_dirty then SetKnownSubdirs t (e.subdirsInDirectory t.dir)
    else t
  (t.known_subdirs.filter fun sd => leftOfLast '/' sd.path == path && sd.mtime != 0, t)

/-- `ScanTransaction::GetAllSubdirs`. -/
def GetAllSubdirs (e : Env) (t : ScanTransaction) :
    List Subdirectory × ScanTransaction :=
  let t :=
    if t.known_subdirs_dirty then SetKnownSubdirs t (e.subdirsInDirectory t.dir)
    else t
  (t.known_subdirs, t)

/-! ## Album-art selection -/

/-- The filter loop of `CollectionWatcher::PickBestImage`: collect the
images whose filename contains the filter text (case-insensitively), going
through the filters best-to-worst and stopping at the first filter with a
non-empty result. -/
def filterImagesByBest : List String → List String → List String
  | [], _ => []
  | f :: rest, images =>
    let filtered := images.filter fun img => strContainsCI (fileNamePart img) f
    if filtered.isEmpty then filterImagesByBest rest images else filtered

/-- One iteration of the size loop of `CollectionWatcher::PickBestImage`:
skip when stopped or when the image does not load, keep the image when its
pixel area strictly beats the best so far. -/
def pickStep (e : Env) (stop : Bool) (acc : Nat × String) (path : String) :
    Nat × String :=
  if stop then acc
  else
    match e.imageSize path with
    | none => acc
    | some (wd, ht) => if wd * ht > acc.1 then (wd * ht, path) else acc

/-- The size loop of `CollectionWatcher::PickBestImage`: among the loadable
images keep the first one of strictly largest pixel area, as the pair
(biggest size, biggest path); aborted by the stop flag. -/
def pickBiggest (e : Env) (stop : Bool) (filtered : List String) : Nat × String :=
  filtered.foldl (pickStep e stop) (0, "")

/-- `CollectionWatcher::PickBestImage`: first non-empty filter result (or
all candidates when every filter fails), then the biggest loadable image. -/
def PickBestImage (w : Watcher) (e : Env) (images : List String) : String :=
  let filtered := filterImagesByBest w.best_image_filters images
  let filtered := if filtered.isEmpty then images else filtered
  (pickBiggest e w.stop_requested filtered).2

/-- The per-directory album-art candidate map built during the listing pass
(`QMap<QString, QStringList> album_art`), as an association list. -/
def AlbumArt := List (String × List String)

/-- Lookup in the album-art map. -/
def aaLookup (m : AlbumArt) (k : String) : Option (List String) :=
  (m.find? fun p => p.1 == k).map fun p => p.2

/-- Replace (or insert) the candidate list for one directory. -/
def aaSet (m : AlbumArt) (k : String) (v : List String) : AlbumArt :=
  match m with
  | [] => [(k, v)]
  | p :: rest => if p.1 == k then (k, v) :: rest else p :: aaSet rest k v

/-- `album_art[dir] << child`: append a candidate to a directory's list. -/
def aaAppend (m : AlbumArt) (k : String) (file : String) : AlbumArt :=
  match aaLookup m k with
  | some v => aaSet m k (v ++ [file])
  | none => aaSet m k [file]

/-- `CollectionWatcher::ImageForSong`: the chosen art for a song's
directory; with more than one candidate the best image is picked once and
cached back into the map. -/
def ImageForSong (w : Watcher) (e : Env) (path : String) (album_art : AlbumArt) :
    String × AlbumArt :=
  let dir := DirectoryPart path
  match aaLookup album_art dir with
  | some imgs =>
    if imgs.length == 1 then (imgs.headD "", album_art)
    else
      let best := PickBestImage w e imgs
      (best, aaSet album_art dir [best])
  | none => ("", album_art)

/-! ## File reconciliation -/

/-- `CollectionWatcher::GetMtimeForCue`: 0 for an empty or nonexistent cue
path, the cue sheet's mtime otherwise. -/
def GetMtimeForCue (e : Env) (cue_path : String) : Nat :=
  if strIsEmpty cue_path then 0
  else if !(fsExists e cue_path) then 0
  else
    match e.stat cue_path with
    | none => 0
    | some i => i.mtime

/-- `CollectionWatcher::FindSongByPath`: the first stored song whose URL's
local file equals `path`. -/
def FindSongByPath (list : List Song) (path : String) : Option Song :=
  list.find? fun s => s.url == path

/-- The `QHash<quint64, Song> sections_map` of `UpdateCueAssociatedSongs`:
later insertions overwrite earlier ones; a missing key yields a
default-constructed (invalid) `Song`. -/
def sectionsMapLookup (old_sections : List Song) (beg : Nat) : Song :=
  match old_sections.reverse.find? fun s => s.beginning == beg with
  | some s => s
  | none => {}

/-- `CollectionWatcher::PreserveUserSetData`: carry the database row id,
automatic art (only without an embedded cover) and user data over from the
stored song, then queue the result as "new" (when the stored song was
unavailable or the metadata differs) or as "touched" (mtime-only). -/
def PreserveUserSetData (image : String) (matching_song out : Song)
    (t : ScanTransaction) : ScanTransaction :=
  let out := { out with id := matching_song.id }
  let out := if !out.hasEmbeddedCover then { out with art_automatic := image } else out
  let out := MergeUserSetData out matching_song
  if matching_song.unavailable then { t with new_songs := t.new_songs ++ [out] }
  else if !(IsMetadataEqual matching_song out) then
    { t with new_songs := t.new_songs ++ [out] }
  else { t with touched_songs := t.touched_songs ++ [out] }

/-- `CollectionWatcher::UpdateCueAssociatedSongs`: reload the cue sheet,
diff its sections by beginning offset against the stored sections of the
file — unmatched cue sections become new songs, matched ones are updated
with preserved user data, stored sections no longer in the cue become
deletions. -/
def UpdateCueAssociatedSongs (w : Watcher) (e : Env)
    (file path matching_cue image : String) (t : ScanTransaction) :
    ScanTransaction × List Eff :=
  let old_sections := e.getSongsByUrl file
  let (t, used_ids) :=
    (e.cueLoad matching_cue path).foldl
      (fun (acc : ScanTransaction × List Int) cs =>
        let (t, used_ids) := acc
        let cue_song := { cs with source := w.source, directory_id := t.dir }
        let matching := sectionsMapLookup old_sections cue_song.beginning
        if !matching.valid then
          ({ t with new_songs := t.new_songs ++ [cue_song] }, used_ids)
        else
          (PreserveUserSetData image matching cue_song t, used_ids ++ [matching.id]))
      (t, [])
  let t :=
    old_sections.foldl
      (fun t m =>
        if used_ids.contains m.id then t
        else { t with deleted_songs := t.deleted_songs ++ [m] })
      t
  (t, [Eff.loadCue matching_cue])

/-- `CollectionWatcher::UpdateNonCueAssociatedSong`: when a cue was just
deleted, queue deletions for every other stored section of the file; then
re-read the file's tags and, when valid, preserve user data and queue the
result. -/
def UpdateNonCueAssociatedSong (w : Watcher) (e : Env) (file : String)
    (matching_song : Song) (image : String) (cue_deleted : Bool)
    (t : ScanTransaction) : ScanTransaction × List Eff :=
  let t :=
    if cue_deleted then
      (e.getSongsByUrl file).foldl
        (fun t song =>
          if !(IsMetadataEqual song matching_song) then
            { t with deleted_songs := t.deleted_songs ++ [song] }
          else t)
        t
    else t
  let song_on_disk := { e.readFile file with source := w.source, directory_id := t.dir }
  let t :=
    if song_on_disk.valid then PreserveUserSetData image matching_song song_on_disk t
    else t
  (t, [Eff.readTags file])

/-- The cue-section acceptance loop of `ScanNewFile`: keep the sections
whose NFD-normalized referenced URL is the file under consideration and
which pass the blocking media-file check. -/
def scanNewFileCueLoop (e : Env) (file file_nfd : String) :
    List Song → List Song × List Eff → List Song × List Eff
  | [], acc => acc
  | cue_song :: rest, acc =>
    scanNewFileCueLoop e file file_nfd rest
      (if e.nfd cue_song.url == file_nfd then
        if e.isMediaFile file then
          (acc.1 ++ [cue_song], acc.2 ++ [Eff.isMediaFileCheck file])
        else (acc.1, acc.2 ++ [Eff.isMediaFileCheck file])
      else acc)

/-- `CollectionWatcher::ScanNewFile`: a file on disk with no stored song.
With an existing, not-yet-processed sibling cue sheet, expand the cue into
virtual tracks, keeping only sections whose NFD-normalized target URL is
the file itself and which pass the blocking media-file check; otherwise one
blocking tag read.  Returns (accepted songs, cues-processed set, effects). -/
def ScanNewFile (w : Watcher) (e : Env) (file path matching_cue : String)
    (cues_processed : List String) : List Song × List String × List Eff :=
  let matching_cue_mtime := GetMtimeForCue e matching_cue
  if matching_cue_mtime != 0 then
    if cues_processed.contains matching_cue then ([], cues_processed, [])
    else
      let file_nfd := e.nfd file
      let (song_list, effs) :=
        scanNewFileCueLoop e file file_nfd (e.cueLoad matching_cue path) ([], [])
      let cues_processed :=
        if !song_list.isEmpty then cues_processed ++ [matching_cue] else cues_processed
      (song_list, cues_processed, Eff.loadCue matching_cue :: effs)
  else
    let song := e.readFile file
    if song.valid then ([{ song with source := w.source }], cues_processed, [Eff.readTags file])
    else ([], cues_processed, [Eff.readTags file])

/-! ## The directory walker -/

/-- The state threaded through the per-file loop of `ScanSubdirectory`: the
transaction, the (shrinkable) in-memory file set, the per-visit set of
already-expanded cue sheets, the album-art candidate map and the effects
so far. -/
structure FileLoopState where
  t : ScanTransaction
  files_on_disk : List String
  cues_processed : List String
  album_art : AlbumArt
  effs : List Eff

/-- One iteration of the file-reconciliation loop of
`CollectionWatcher::ScanSubdirectory` (lines 383–457). -/
def processFile (w : Watcher) (e : Env) (songs_in_db : List Song) (path : String)
    (st : FileLoopState) (file : String) : FileLoopState :=
  let matching_cue := NoExtensionPart file ++ ".cue"
  match FindSongByPath songs_in_db file with
  | some matching_song =>
    let matching_cue_mtime := GetMtimeForCue e matching_cue
    if !(fsExists e file) then
      -- Partially fixes race condition - the file was removed between being
      -- added to the list and now.
      { st with files_on_disk := st.files_on_disk.filter fun f => f != file }
    else
      let song_cue := matching_song.cue_path
      let song_cue_mtime := GetMtimeForCue e song_cue
      let cue_deleted := song_cue_mtime == 0 && matching_song.hasCue
      let cue_added := matching_cue_mtime != 0 && !matching_song.hasCue
      let changed :=
        (matching_song.mtime != max (fsMtime e file) song_cue_mtime) ||
        cue_deleted || cue_added
      let (image, album_art) := ImageForSong w e file st.album_art
      let changed := changed ||
        ((strIsEmpty matching_song.art_automatic && !(strIsEmpty image)) ||
         (!(strIsEmpty matching_song.art_automatic) && !matching_song.hasEmbeddedCover &&
          !(fsExists e matching_song.art_automatic)))
      let (t, effs) :=
        if st.t.ignores_mtime || changed then
          if !cue_deleted && (matching_song.hasCue || cue_added) then
            UpdateCueAssociatedSongs w e file path matching_cue image st.t
          else
            UpdateNonCueAssociatedSong w e file matching_song image cue_deleted st.t
        else (st.t, [])
      let t :=
        if matching_song.unavailable then
          { t with readded_songs := t.readded_songs ++ [matching_song] }
        else t
      { st with t := t, album_art := album_art, effs := st.effs ++ effs }
  | none =>
    let (song_list, cues_processed, effs) :=
      ScanNewFile w e file path matching_cue st.cues_processed
    if song_list.isEmpty then
      { st with cues_processed := cues_processed, effs := st.effs ++ effs }
    else
      let (image, album_art) := ImageForSong w e file st.album_art
      let t :=
        song_list.foldl
          (fun t song =>
            let song := { song with directory_id := t.dir }
            let song :=
              if strIsEmpty song.art_automatic then { song with art_automatic := image }
              else song
            { t with new_songs := t.new_songs ++ [song] })
          st.t
      { st with t := t, cues_processed := cues_processed, album_art := album_art,
                effs := st.effs ++ effs }

/-- The file-reconciliation loop, with the per-iteration stop check; the
Bool result records whether the loop aborted (returning from
`ScanSubdirectory`). -/
def processFiles (w : Watcher) (e : Env) (songs_in_db : List Song) (path : String) :
    List String → FileLoopState → FileLoopState × Bool
  | [], st => (st, false)
  | file :: rest, st =>
    if w.stop_requested then (st, true)
    else processFiles w e songs_in_db path rest (processFile w e songs_in_db path st file)

/-- The classification step of the single disk-listing pass: unseen
subdirectories, album-art candidates and candidate music files. -/
def classifyChild (e : Env)
    (acc : List Subdirectory × AlbumArt × List String × ScanTransaction)
    (child : String) :
    List Subdirectory × AlbumArt × List String × ScanTransaction :=
  let (subs, aa, files, t) := acc
  if fsIsDir e child then
    if !(fsIsHidden e child) then
      let (seen, t) := HasSeenSubdir e t child
      if !seen then
        (subs ++ [{ directory_id := -1, path := child, mtime := fsMtime e child }], aa, files, t)
      else (subs, aa, files, t)
    else (subs, aa, files, t)
  else
    let ext_part := ExtensionPart child
    let dir_part := DirectoryPart child
    if sValidImages.contains ext_part then (subs, aaAppend aa dir_part child, files, t)
    else if !(fsIsHidden e child) then (subs, aa, files ++ [child], t)
    else (subs, aa, files, t)

/-- `CollectionWatcher::ScanSubdirectory`, fuel-indexed to bound the
recursion depth (stale previously-known children and newly discovered
children); fuel 0 is never reached for walks whose recursion depth is below
the supplied fuel. -/
def ScanSubdirectory (w : Watcher) (e : Env) :
    Nat → String → Subdirectory → ScanTransaction → Bool → ScanTransaction × List Eff
  | 0 => fun _ _ t _ => (t, [])
  | fuel + 1 => fun path subdir t force_noincremental =>
    -- Do not scan symlinked dirs that are already in the collection.
    if fsIsSymLink e path &&
        w.watched_dirs.any (fun d => strStartsWith (fsSymLinkTarget e path) d.2.path) then
      AddToProgress t 1
    -- Do not scan directories containing a .nomedia or .nomusic file.
    else if fsExists e (path ++ "/.nomedia") || fsExists e (path ++ "/.nomusic") then
      AddToProgress t 1
    -- The directory has not changed since last time.
    else if !t.ignores_mtime && !force_noincremental && t.incremental &&
        subdir.mtime == fsMtime e path then
      AddToProgress t 1
    else
      -- Rescan previously-known immediate children that no longer exist.
      let (previous_subdirs, t) := GetImmediateSubdirs e t path
      let (t, effs0) :=
        previous_subdirs.foldl
          (fun (acc : ScanTransaction × List Eff) prev =>
            if !(fsExists e prev.path) && prev.path != path then
              let (t, e1) := AddToProgressMax acc.1 1
              let (t, e2) := ScanSubdirectory w e fuel prev.path prev t true
              (t, acc.2 ++ e1 ++ e2)
            else acc)
          (t, [])
      -- Single disk-listing pass (with the per-iteration stop check; the
      -- stop flag is constant during one modelled scan, so a requested stop
      -- aborts before the first child is classified).
      let children := e.listing path
      if w.stop_requested then (t, effs0 ++ [Eff.listDir path])
      else
        let (my_new_subdirs, album_art, files_on_disk, t) :=
          children.foldl (classifyChild e) ([], [], [], t)
        let (songs_in_db, t) := FindSongsInSubdirectory e t path
        let (st, aborted) :=
          processFiles w e songs_in_db path files_on_disk
            { t := t, files_on_disk := files_on_disk, cues_processed := [],
              album_art := album_art, effs := [] }
        if aborted then (st.t, effs0 ++ [Eff.listDir path] ++ st.effs)
        else
          -- Look for deleted songs.
          let t :=
            songs_in_db.foldl
              (fun t song =>
                if !song.unavailable && !(st.files_on_disk.contains song.url) then
                  { t with deleted_songs := t.deleted_songs ++ [song] }
                else t)
              st.t
          -- Add this subdirectory to the new or touched list.
          let updated_subdir : Subdirectory :=
            { directory_id := t.dir, path := path,
              mtime := if fsExists e path then fsMtime e path else 0 }
          let t :=
            if subdir.directory_id == -1 then
              { t with new_subdirs := t.new_subdirs ++ [updated_subdir] }
            else { t with touched_subdirs := t.touched_subdirs ++ [updated_subdir] }
          let t :=
            if updated_subdir.mtime == 0 then
              { t with deleted_subdirs := t.deleted_subdirs ++ [updated_subdir] }
            else t
          let (t, ep) := AddToProgress t 1
          let (t, ec) :=
            if w.live_scanning then CommitNewOrUpdatedSongs w t else (t, [])
          -- Recurse into the newly found subdirectories.
          let (t, em) := AddToProgressMax t my_new_subdirs.length
          let (t, er) :=
            if w.stop_requested then (t, [])
            else
              my_new_subdirs.foldl
                (fun (acc : ScanTransaction × List Eff) sub =>
                  let (t2, e2) := ScanSubdirectory w e fuel sub.path sub acc.1 true
                  (t2, acc.2 ++ e2))
                (t, [])
          (t, effs0 ++ [Eff.listDir path] ++ st.effs ++ ep ++ ec ++ em ++ er)

/-! ## The commit: order and frame -/

/-- Modelled from the spec: the fixed flush order of §4.1 — new songs,
touched songs, deleted songs (honoring prevent-delete), readded songs, new
subdirectories, touched subdirectories, then watch removal for deleted
subdirectories, and finally (when monitoring) watch addition for newly
discovered subdirectories. -/
def commitOrderSpec (w : Watcher) (t : ScanTransaction) : List Eff :=
  (if t.new_songs.isEmpty then [] else [Eff.newOrUpdatedSongs t.new_songs]) ++
  (if t.touched_songs.isEmpty then [] else [Eff.songsMTimeUpdated t.touched_songs]) ++
  (if !t.deleted_songs.isEmpty && !t.prevent_delete then
     [Eff.songsDeleted t.deleted_songs] else []) ++
  (if t.readded_songs.isEmpty then [] else [Eff.songsReadded t.readded_songs]) ++
  (if t.new_subdirs.isEmpty then [] else [Eff.subdirsDiscovered t.new_subdirs]) ++
  (if t.touched_subdirs.isEmpty then [] else [Eff.subdirsMTimeUpdated t.touched_subdirs]) ++
  (t.deleted_subdirs.filterMap fun sd =>
    if wdContains w t.dir then some (Eff.removeWatch t.dir sd.path) else none) ++
  (if w.monitor then
     t.new_subdirs.filterMap fun sd =>
       if wdContains w t.dir then some (Eff.addWatch t.dir sd.path) else none
   else [])

/-- Normal form of `CommitNewOrUpdatedSongs`: the emitted events are the
spec's fixed order, and every buffer is cleared except the deleted-songs
buffer, which survives under prevent-delete. -/
theorem CommitNewOrUpdatedSongs_eq (w : Watcher) (t : ScanTransaction) :
    CommitNewOrUpdatedSongs w t =
      ({ t with new_songs := [], touched_songs := [],
                deleted_songs := if t.prevent_delete then t.deleted_songs else [],
                readded_songs := [], new_subdirs := [], touched_subdirs := [],
                deleted_subdirs := [] },
       commitOrderSpec w t) := by
  have hn : ∀ u : ScanTransaction, commitNewSongs u =
      ({ u with new_songs := [] },
       if u.new_songs.isEmpty then [] else [Eff.newOrUpdatedSongs u.new_songs]) := by
    intro u
    obtain ⟨tid, pr, prm, dir, inc, igm, pd, csd, cs, ksd, ks, ns, ts, ds, rs, nsd, tsd, dsd⟩ := u
    by_cases h : (ns : List Song).isEmpty <;> simp_all [commitNewSongs, List.isEmpty_iff]
  have ht : ∀ u : ScanTransaction, commitTouchedSongs u =
      ({ u with touched_songs := [] },
       if u.touched_songs.isEmpty then [] else [Eff.songsMTimeUpdated u.touched_songs]) := by
    intro u
    obtain ⟨tid, pr, prm, dir, inc, igm, pd, csd, cs, ksd, ks, ns, ts, ds, rs, nsd, tsd, dsd⟩ := u
    by_cases h : (ts : List Song).isEmpty <;> simp_all [commitTouchedSongs, List.isEmpty_iff]
  have hd : ∀ u : ScanTransaction, commitDeletedSongs u =
      ({ u with deleted_songs := if u.prevent_delete then u.deleted_songs else [] },
       if !u.deleted_songs.isEmpty && !u.prevent_delete then
         [Eff.songsDeleted u.deleted_songs] else []) := by
    intro u
    obtain ⟨tid, pr, prm, dir, inc, igm, pd, csd, cs, ksd, ks, ns, ts, ds, rs, nsd, tsd, dsd⟩ := u
    by_cases h : (ds : List Song).isEmpty <;> by_cases hp : (pd : Bool) <;>
      simp_all [commitDeletedSongs, List.isEmpty_iff]
  have hr : ∀ u : ScanTransaction, commitReaddedSongs u =
      ({ u with readded_songs := [] },
       if u.readded_songs.isEmpty then [] else [Eff.songsReadded u.readded_songs]) := by
    intro u
    obtain ⟨tid, pr, prm, dir, inc, igm, pd, csd, cs, ksd, ks, ns, ts, ds, rs, nsd, tsd, dsd⟩ := u
    by_cases h : (rs : List Song).isEmpty <;> simp_all [commitReaddedSongs, List.isEmpty_iff]
  have hts : ∀ u : ScanTransaction, commitTouchedSubdirs u =
      ({ u with touched_subdirs := [] },
       if u.touched_subdirs.isEmpty then [] else [Eff.subdirsMTimeUpdated u.touched_subdirs]) := by
    intro u
    obtain ⟨tid, pr, prm, dir, inc, igm, pd, csd, cs, ksd, ks, ns, ts, ds, rs, nsd, tsd, dsd⟩ := u
    by_cases h : (tsd : List Subdirectory).isEmpty <;>
      simp_all [commitTouchedSubdirs, List.isEmpty_iff]
  simp [CommitNewOrUpdatedSongs, commitOrderSpec, hn, ht, hd, hr, hts]

/-- C1: if the global stop flag is set when a scan transaction ends, the
commit is skipped entirely — no batch event is emitted and the pending
buffers are left unapplied — and in every case (stopped or not) the
transaction's progress task is marked finished. -/
theorem stopped_transaction_skips_commit_marks_finished
    (w : Watcher) (t : ScanTransaction) :
    (w.stop_requested = true →
      scanTransactionEnd w t = (t, [Eff.setTaskFinished t.task_id])) ∧
    Eff.setTaskFinished t.task_id ∈ (scanTransactionEnd w t).2 := by
  constructor
  · intro h
    simp [scanTransactionEnd, h]
  · by_cases h : w.stop_requested <;>
      simp [scanTransactionEnd, h, CommitNewOrUpdatedSongs_eq]

/-- Fixture transaction with non-empty pending buffers. -/
def tFix : ScanTransaction :=
  { dir := 5, incremental := true, ignores_mtime := false, prevent_delete := false,
    new_songs := [{ valid := true, id := 3, url := "/root/x.mp3", mtime := 10 }],
    touched_songs := [{ valid := true, id := 4, url := "/root/y.mp3", mtime := 11 }],
    deleted_songs := [{ valid := true, id := 6, url := "/root/z.mp3", mtime := 12 }],
    readded_songs := [{ valid := true, id := 8, url := "/root/w.mp3", mtime := 13 }],
    new_subdirs := [{ directory_id := 5, path := "/root/new", mtime := 20 }],
    touched_subdirs := [{ directory_id := 5, path := "/root/old", mtime := 21 }],
    deleted_subdirs := [{ directory_id := 5, path := "/root/gone", mtime := 0 }] }

theorem stopped_transaction_skips_commit_marks_finished_witness :
    scanTransactionEnd { stop_requested := true } tFix =
      (tFix, [Eff.setTaskFinished tFix.task_id]) ∧
    Eff.setTaskFinished tFix.task_id ∈
      (scanTransactionEnd { stop_requested := true } tFix).2 :=
  ⟨(stopped_transaction_skips_commit_marks_finished { stop_requested := true } tFix).1 rfl,
   (stopped_transaction_skips_commit_marks_finished { stop_requested := true } tFix).2⟩

/-- C6: a transaction that ends with the stop flag unset flushes its buffers
in the fixed order — new songs, touched songs, deleted songs (only without
prevent-delete), readded songs, new subdirectories, touched subdirectories
— then removes watches for deleted subdirectories and finally (only when
monitoring) adds watches for newly discovered subdirectories. -/
theorem commit_event_order_fixed (w : Watcher) (t : ScanTransaction)
    (h : w.stop_requested = false) :
    (scanTransactionEnd w t).2 =
      commitOrderSpec w t ++ [Eff.setTaskFinished t.task_id] := by
  simp [scanTransactionEnd, h, CommitNewOrUpdatedSongs_eq]

/-- Fixture watcher for the commit-order witness. -/
def wFix : Watcher :=
  { stop_requested := false, monitor := true,
    watched_dirs := [(5, { id := 5, path := "/root" })] }

theorem commit_event_order_fixed_witness :
    (scanTransactionEnd wFix tFix).2 =
      commitOrderSpec wFix tFix ++ [Eff.setTaskFinished tFix.task_id] :=
  commit_event_order_fixed wFix tFix rfl

/-- C7: `HasSeenSubdir` is true exactly when the transaction's (lazily
fetched, cached) known-subdirectory list has an entry with the given path
and a nonzero mtime; an mtime-0 (previously deleted) entry never counts, so
a previously deleted subdirectory found on disk again is treated as newly
discovered. -/
theorem hasSeenSubdir_iff_nonzero_mtime_entry
    (e : Env) (t : ScanTransaction) (path : String) :
    (HasSeenSubdir e t path).1 = true ↔
      ∃ sd ∈ (if t.known_subdirs_dirty then e.subdirsInDirectory t.dir
              else t.known_subdirs),
        sd.path = path ∧ sd.mtime ≠ 0 := by
  by_cases h : t.known_subdirs_dirty <;>
    simp [HasSeenSubdir, SetKnownSubdirs, h, List.any_eq_true, Bool.and_eq_true,
          beq_iff_eq, bne_iff_ne, and_assoc]

/-- C10: after `CommitNewOrUpdatedSongs` returns, every buffer is empty
except the deleted-songs buffer, which is cleared only when prevent-delete
is unset; with prevent-delete set the deleted-songs buffer survives the
commit and no deleted-songs event is emitted. -/
theorem commit_clears_buffers_except_prevented_deletes
    (w : Watcher) (t : ScanTransaction) :
    ((CommitNewOrUpdatedSongs w t).1.new_songs = [] ∧
     (CommitNewOrUpdatedSongs w t).1.touched_songs = [] ∧
     (CommitNewOrUpdatedSongs w t).1.readded_songs = [] ∧
     (CommitNewOrUpdatedSongs w t).1.new_subdirs = [] ∧
     (CommitNewOrUpdatedSongs w t).1.touched_subdirs = [] ∧
     (CommitNewOrUpdatedSongs w t).1.deleted_subdirs = []) ∧
    (CommitNewOrUpdatedSongs w t).1.deleted_songs =
      (if t.prevent_delete then t.deleted_songs else []) ∧
    (t.prevent_delete = true →
      ∀ l, Eff.songsDeleted l ∉ (CommitNewOrUpdatedSongs w t).2) := by
  refine ⟨by simp [CommitNewOrUpdatedSongs_eq], by simp [CommitNewOrUpdatedSongs_eq], ?_⟩
  intro hp l hmem
  simp only [CommitNewOrUpdatedSongs_eq, commitOrderSpec, hp] at hmem
  split_ifs at hmem <;> simp_all [List.mem_filterMap]

theorem commit_clears_buffers_except_prevented_deletes_witness :
    (((CommitNewOrUpdatedSongs wFix { tFix with prevent_delete := true }).1.new_songs = [] ∧
      (CommitNewOrUpdatedSongs wFix { tFix with prevent_delete := true }).1.touched_songs = [] ∧
      (CommitNewOrUpdatedSongs wFix { tFix with prevent_delete := true }).1.readded_songs = [] ∧
      (CommitNewOrUpdatedSongs wFix { tFix with prevent_delete := true }).1.new_subdirs = [] ∧
      (CommitNewOrUpdatedSongs wFix { tFix with prevent_delete := true }).1.touched_subdirs = [] ∧
      (CommitNewOrUpdatedSongs wFix { tFix with prevent_delete := true }).1.deleted_subdirs = []) ∧
     (CommitNewOrUpdatedSongs wFix { tFix with prevent_delete := true }).1.deleted_songs =
       { tFix with prevent_delete := true }.deleted_songs) ∧
    ∀ l, Eff.songsDeleted l ∉
      (CommitNewOrUpdatedSongs wFix { tFix with prevent_delete := true }).2 :=
  ⟨⟨(commit_clears_buffers_except_prevented_deletes wFix
      { tFix with prevent_delete := true }).1,
    (commit_clears_buffers_except_prevented_deletes wFix
      { tFix with prevent_delete := true }).2.1⟩,
   (commit_clears_buffers_except_prevented_deletes wFix
      { tFix with prevent_delete := true }).2.2 rfl⟩

/-- C2: an incremental, non-forced, non-ignore-mtime visit of a
subdirectory that is not excluded by the symlink or marker-file skip rules
and whose stored mtime equals the on-disk mtime consumes exactly one
progress unit and returns: the only effect is the progress report (no
directory listing, no file read, no recursion) and the transaction is
otherwise untouched. -/
theorem incremental_mtime_shortcircuit (w : Watcher) (e : Env) (fuel : Nat)
    (path : String) (subdir : Subdirectory) (t : ScanTransaction)
    (him : t.ignores_mtime = false) (hinc : t.incremental = true)
    (hmt : subdir.mtime = fsMtime e path)
    (hsym : (fsIsSymLink e path &&
      w.watched_dirs.any fun d =>
        strStartsWith (fsSymLinkTarget e path) d.2.path) = false)
    (hnm : fsExists e (path ++ "/.nomedia") = false)
    (hnm2 : fsExists e (path ++ "/.nomusic") = false) :
    ScanSubdirectory w e (fuel + 1) path subdir t false =
      ({ t with progress := t.progress + 1 },
       [Eff.setTaskProgress t.task_id (t.progress + 1) t.progress_max]) := by
  simp [ScanSubdirectory, AddToProgress, him, hinc, hmt, hsym, hnm, hnm2]

/-- Fixture environment for the mtime short-circuit witness: one watched
directory `/m` whose on-disk mtime 50 matches the stored record. -/
def envC2 : Env :=
  { stat := fun p => if p == "/m" then some { isDir := true, mtime := 50 } else none,
    listing := fun _ => [],
    imageSize := fun _ => none,
    readFile := fun _ => {},
    isMediaFile := fun _ => false,
    cueLoad := fun _ _ => [],
    nfd := fun s => s,
    findSongsInDirectory := fun _ => [],
    subdirsInDirectory := fun _ => [],
    getSongsByUrl := fun _ => [] }

theorem incremental_mtime_shortcircuit_witness :
    ScanSubdirectory {} envC2 1 "/m" { directory_id := 1, path := "/m", mtime := 50 }
        { dir := 1, incremental := true, ignores_mtime := false, prevent_delete := false }
        false =
      ({ dir := 1, incremental := true, ignores_mtime := false, prevent_delete := false,
         progress := 1 },
       [Eff.setTaskProgress 0 1 0]) :=
  incremental_mtime_shortcircuit {} envC2 0 "/m"
    { directory_id := 1, path := "/m", mtime := 50 }
    { dir := 1, incremental := true, ignores_mtime := false, prevent_delete := false }
    rfl rfl (by decide) (by decide) (by decide) (by decide)

/-- The loaded pixel area of an image candidate (0 when it does not load). -/
def imgArea (e : Env) (p : String) : Nat :=
  match e.imageSize p with
  | none => 0
  | some (wd, ht) => wd * ht

/-- Invariant of the size loop (stop flag unset): the accumulator never
shrinks, every traversed candidate's area is bounded by the final best
size, and the final best is either the untouched accumulator or a traversed
candidate whose area equals the best size. -/
theorem pickStep_foldl_invariant (e : Env) (l : List String) :
    ∀ acc : Nat × String,
      acc.1 ≤ (l.foldl (pickStep e false) acc).1 ∧
      (∀ img ∈ l, imgArea e img ≤ (l.foldl (pickStep e false) acc).1) ∧
      (l.foldl (pickStep e false) acc = acc ∨
        ((l.foldl (pickStep e false) acc).2 ∈ l ∧
         imgArea e (l.foldl (pickStep e false) acc).2 =
           (l.foldl (pickStep e false) acc).1)) := by
  induction l with
  | nil => simp
  | cons p rest ih =>
    intro acc
    have hb1 : acc.1 ≤ (pickStep e false acc p).1 := by
      unfold pickStep
      cases him : e.imageSize p with
      | none => simp
      | some a =>
        obtain ⟨wd, ht⟩ := a
        by_cases hgt : wd * ht > acc.1 <;> simp [hgt] <;> omega
    have hb2 : imgArea e p ≤ (pickStep e false acc p).1 := by
      unfold pickStep imgArea
      cases him : e.imageSize p with
      | none => simp
      | some a =>
        obtain ⟨wd, ht⟩ := a
        by_cases hgt : wd * ht > acc.1 <;> simp [hgt] <;> omega
    have hb3 : pickStep e false acc p = acc ∨
        ((pickStep e false acc p).2 = p ∧
         imgArea e p = (pickStep e false acc p).1) := by
      unfold pickStep imgArea
      cases him : e.imageSize p with
      | none => simp
      | some a =>
        obtain ⟨wd, ht⟩ := a
        by_cases hgt : wd * ht > acc.1 <;> simp [hgt]
    obtain ⟨r1, r2, r3⟩ := ih (pickStep e false acc p)
    refine ⟨le_trans hb1 r1, ?_, ?_⟩
    · intro img hmem
      rcases List.mem_cons.mp hmem with h | h
      · subst h
        exact le_trans hb2 r1
      · exact r2 img h
    · rcases r3 with h | h
      · rw [List.foldl_cons, h]
        rcases hb3 with h3 | h3
        · exact Or.inl h3
        · refine Or.inr ⟨?_, ?_⟩
          · rw [h3.1]
            exact List.mem_cons_self p rest
          · rw [h3.1]
            exact h3.2
      · exact Or.inr ⟨List.mem_cons_of_mem p h.1, h.2⟩

/-- When every configured filter rejects every candidate, the filter loop
returns the empty list. -/
theorem filterImagesByBest_all_fail (fls : List String) (images : List String)
    (h : ∀ fl ∈ fls, ∀ img ∈ images, strContainsCI (fileNamePart img) fl = false) :
    filterImagesByBest fls images = [] := by
  induction fls with
  | nil => rfl
  | cons fl rest ih =>
    have hfilter : images.filter (fun img => strContainsCI (fileNamePart img) fl) = [] := by
      rw [List.filter_eq_nil_iff]
      intro img hmem
      simp [h fl (List.mem_cons_self fl rest) img hmem]
    simp only [filterImagesByBest, hfilter, List.isEmpty_nil, if_true]
    exact ih fun fl2 h2 img hmem => h fl2 (List.mem_cons_of_mem fl h2) img hmem

/-- C8: album-art selection is deterministic.  (a) With candidates
`cover.jpg` and `folder.jpg` and the configured filter order
`["front","cover"]`, the chosen art for a song in that directory is
`cover.jpg` whenever it loads with a nonzero pixel area.  (b) When no
filter matches any candidate, the pick falls back to the full candidate
list.  (c) The size loop picks a loadable candidate of maximal pixel
area. -/
theorem art_selection_deterministic :
    (∀ (e : Env) (w : Watcher) (f : String) (wi hi : Nat),
      w.best_image_filters = ["front", "cover"] → w.stop_requested = false →
      DirectoryPart f = "/dir" →
      e.imageSize "/dir/cover.jpg" = some (wi, hi) → 0 < wi * hi →
      (ImageForSong w e f
        [("/dir", ["/dir/cover.jpg", "/dir/folder.jpg"])]).1 = "/dir/cover.jpg") ∧
    (∀ (e : Env) (w : Watcher) (images : List String),
      w.stop_requested = false →
      (∀ fl ∈ w.best_image_filters, ∀ img ∈ images,
        strContainsCI (fileNamePart img) fl = false) →
      PickBestImage w e images = (pickBiggest e false images).2) ∧
    (∀ (e : Env) (images : List String),
      (∀ img ∈ images, imgArea e img ≤ (pickBiggest e false images).1) ∧
      ((pickBiggest e false images).1 ≠ 0 →
        (pickBiggest e false images).2 ∈ images ∧
        imgArea e (pickBiggest e false images).2 = (pickBiggest e false images).1)) := by
  refine ⟨?_, ?_, ?_⟩
  · intro e w f wi hi hflt hstop hdir him hpos
    have hfib : filterImagesByBest ["front", "cover"]
        ["/dir/cover.jpg", "/dir/folder.jpg"] = ["/dir/cover.jpg"] := by decide
    simp only [ImageForSong, hdir, aaLookup, List.find?, beq_self_eq_true,
      Option.map_some, if_true]
    simp only [PickBestImage, hflt, hstop, hfib]
    simp [pickBiggest, pickStep, him, hpos, hfib]
  · intro e w images hstop hfail
    simp [PickBestImage, hstop, filterImagesByBest_all_fail w.best_image_filters images hfail,
      pickBiggest]
  · intro e images
    obtain ⟨_, h2, h3⟩ := pickStep_foldl_invariant e images (0, "")
    simp only [pickBiggest]
    refine ⟨h2, fun hne => ?_⟩
    rcases h3 with h | h
    · rw [h] at hne
      simp at hne
    · exact h

/-- Fixture environment for the art-selection witness. -/
def envC8 : Env :=
  { envC2 with imageSize := fun p =>
      if p == "/dir/cover.jpg" then some (60, 60)
      else if p == "/dir/folder.jpg" then some (100, 100)
      else if p == "/dir/a.png" then some (5, 5)
      else none }

/-- Fixture watcher with the claim's filter order. -/
def wC8 : Watcher := { best_image_filters := ["front", "cover"] }

theorem art_selection_deterministic_witness :
    (ImageForSong wC8 envC8 "/dir/track.mp3"
      [("/dir", ["/dir/cover.jpg", "/dir/folder.jpg"])]).1 = "/dir/cover.jpg" ∧
    PickBestImage { best_image_filters := ["front"] } envC8 ["/dir/a.png"] =
      (pickBiggest envC8 false ["/dir/a.png"]).2 ∧
    ((pickBiggest envC8 false ["/dir/a.png"]).2 ∈ ["/dir/a.png"] ∧
     imgArea envC8 (pickBiggest envC8 false ["/dir/a.png"]).2 =
       (pickBiggest envC8 false ["/dir/a.png"]).1) :=
  ⟨art_selection_deterministic.1 envC8 wC8 "/dir/track.mp3" 60 60 rfl rfl
      (by decide) (by decide) (by decide),
   art_selection_deterministic.2.1 envC8 { best_image_filters := ["front"] }
      ["/dir/a.png"] rfl (by decide),
   (art_selection_deterministic.2.2 envC8 ["/dir/a.png"]).2 (by decide)⟩

/-- The cue-section acceptance loop, over any accumulator: the accepted
songs are the so-far accepted ones followed by exactly the sections passing
the NFD-equality and media-file checks (in order), and the loop only ever
appends media-file-check effects. -/
theorem scanNewFileCueLoop_spec (e : Env) (file file_nfd : String) :
    ∀ (sections : List Song) (acc : List Song × List Eff),
      (scanNewFileCueLoop e file file_nfd sections acc).1 =
        acc.1 ++ sections.filter
          (fun cs => e.nfd cs.url == file_nfd && e.isMediaFile file) ∧
      ∀ x ∈ (scanNewFileCueLoop e file file_nfd sections acc).2,
        x ∈ acc.2 ∨ x = Eff.isMediaFileCheck file := by
  intro sections
  induction sections with
  | nil =>
    intro acc
    exact ⟨by simp [scanNewFileCueLoop],
           fun x hx => Or.inl (by simpa [scanNewFileCueLoop] using hx)⟩
  | cons cs rest ih =>
    intro acc
    by_cases h1 : e.nfd cs.url == file_nfd
    · by_cases h2 : e.isMediaFile file
      · obtain ⟨ih1, ih2⟩ := ih (acc.1 ++ [cs], acc.2 ++ [Eff.isMediaFileCheck file])
        constructor
        · rw [scanNewFileCueLoop, if_pos h1, if_pos h2, ih1]
          simp [List.filter_cons, h1, h2]
        · intro x hx
          rw [scanNewFileCueLoop, if_pos h1, if_pos h2] at hx
          rcases ih2 x hx with h | h
          · rcases List.mem_append.mp h with h' | h'
            · exact Or.inl h'
            · simp at h'
              exact Or.inr h'
          · exact Or.inr h
      · obtain ⟨ih1, ih2⟩ := ih (acc.1, acc.2 ++ [Eff.isMediaFileCheck file])
        constructor
        · rw [scanNewFileCueLoop, if_pos h1, if_neg h2, ih1]
          simp [List.filter_cons, h1, h2]
        · intro x hx
          rw [scanNewFileCueLoop, if_pos h1, if_neg h2] at hx
          rcases ih2 x hx with h | h
          · rcases List.mem_append.mp h with h' | h'
            · exact Or.inl h'
            · simp at h'
              exact Or.inr h'
          · exact Or.inr h
    · obtain ⟨ih1, ih2⟩ := ih acc
      constructor
      · rw [scanNewFileCueLoop, if_neg h1, ih1]
        simp [List.filter_cons, h1]
      · intro x hx
        rw [scanNewFileCueLoop, if_neg h1] at hx
        exact ih2 x hx

/-- C4: a new file with an existing (nonzero-mtime), not-yet-processed
sibling cue sheet (same basename, extension `.cue`) yields exactly the
cue's sections whose NFD-normalized referenced URL equals the file and
which pass the blocking media-file check; no direct tag read happens; the
cue is recorded as processed exactly when at least one section was
accepted, and a cue already in the processed set is not expanded again. -/
theorem cue_expansion_exact (w : Watcher) (e : Env)
    (file path matching_cue : String) (cues_processed : List String)
    (hmc : matching_cue = NoExtensionPart file ++ ".cue")
    (hcm : GetMtimeForCue e matching_cue ≠ 0)
    (hnp : cues_processed.contains matching_cue = false) :
    (ScanNewFile w e file path matching_cue cues_processed).1 =
      (e.cueLoad matching_cue path).filter
        (fun cs => e.nfd cs.url == e.nfd file && e.isMediaFile file) ∧
    (∀ f, Eff.readTags f ∉ (ScanNewFile w e file path matching_cue cues_processed).2.2) ∧
    (ScanNewFile w e file path matching_cue cues_processed).2.1 =
      (if ((e.cueLoad matching_cue path).filter
            (fun cs => e.nfd cs.url == e.nfd file && e.isMediaFile file)).isEmpty
       then cues_processed else cues_processed ++ [matching_cue]) ∧
    (∀ cp2 : List String, cp2.contains matching_cue = true →
      ScanNewFile w e file path matching_cue cp2 = ([], cp2, [])) := by
  have hcm' : (GetMtimeForCue e matching_cue != 0) = true := by
    simpa using hcm
  obtain ⟨hl1, hl2⟩ := scanNewFileCueLoop_spec e file (e.nfd file)
    (e.cueLoad matching_cue path) ([], [])
  rcases hsl : scanNewFileCueLoop e file (e.nfd file) (e.cueLoad matching_cue path) ([], [])
    with ⟨sl, ef⟩
  rw [hsl] at hl1 hl2
  simp only [List.nil_append, List.not_mem_nil, false_or] at hl1 hl2
  refine ⟨?_, ?_, ?_, ?_⟩
  · simp only [ScanNewFile, hcm', if_true, hnp, Bool.false_eq_true, if_false, hsl, hl1]
  · intro f hf
    simp only [ScanNewFile, hcm', if_true, hnp, Bool.false_eq_true, if_false, hsl] at hf
    rcases List.mem_cons.mp hf with h | h
    · simp at h
    · have := hl2 _ h
      simp at this
  · simp only [ScanNewFile, hcm', if_true, hnp, Bool.false_eq_true, if_false, hsl, ← hl1]
    by_cases hemp : sl.isEmpty <;> simp [hemp, List.isEmpty_iff] <;> simp_all
  · intro cp2 hcp2
    simp only [ScanNewFile, hcm', if_true, hcp2]

/-- Fixture environment for the cue-expansion witness: `/m/a.flac` with cue
sheet `/m/a.cue` defining two sections of `/m/a.flac` and one stray section
of `/m/b.flac`. -/
def envC4 : Env :=
  { envC2 with
    stat := fun p =>
      if p == "/m/a.flac" then some { mtime := 30 }
      else if p == "/m/a.cue" then some { mtime := 31 }
      else none,
    isMediaFile := fun p => p == "/m/a.flac",
    cueLoad := fun cue _ =>
      if cue == "/m/a.cue" then
        [{ valid := true, url := "/m/a.flac", beginning := 0, cue_path := "/m/a.cue" },
         { valid := true, url := "/m/a.flac", beginning := 90, cue_path := "/m/a.cue" },
         { valid := true, url := "/m/b.flac", beginning := 0, cue_path := "/m/a.cue" }]
      else [] }

theorem cue_expansion_exact_witness :
    (ScanNewFile {} envC4 "/m/a.flac" "/m" "/m/a.cue" []).1 =
      (envC4.cueLoad "/m/a.cue" "/m").filter
        (fun cs => envC4.nfd cs.url == envC4.nfd "/m/a.flac" &&
          envC4.isMediaFile "/m/a.flac") ∧
    (∀ f, Eff.readTags f ∉ (ScanNewFile {} envC4 "/m/a.flac" "/m" "/m/a.cue" []).2.2) ∧
    (ScanNewFile {} envC4 "/m/a.flac" "/m" "/m/a.cue" []).2.1 =
      (if ((envC4.cueLoad "/m/a.cue" "/m").filter
            (fun cs => envC4.nfd cs.url == envC4.nfd "/m/a.flac" &&
              envC4.isMediaFile "/m/a.flac")).isEmpty
       then ([] : List String) else [] ++ ["/m/a.cue"]) ∧
    (∀ cp2 : List String, cp2.contains "/m/a.cue" = true →
      ScanNewFile {} envC4 "/m/a.flac" "/m" "/m/a.cue" cp2 = ([], cp2, [])) :=
  cue_expansion_exact {} envC4 "/m/a.flac" "/m" "/m/a.cue" []
    (by decide) (by decide) (by decide)

/-- A string with a false `strIsEmpty` test is not the empty string. -/
theorem strIsEmpty_false_ne (s : String) (h : strIsEmpty s = false) : s ≠ "" := by
  intro he
  subst he
  exact absurd h (by decide)

/-- Two songs with different cue paths never compare metadata-equal. -/
theorem IsMetadataEqual_false_of_cue_ne (m x : Song) (h : m.cue_path ≠ x.cue_path) :
    IsMetadataEqual m x = false := by
  cases hEq : IsMetadataEqual m x
  · rfl
  · simp only [IsMetadataEqual, Bool.and_eq_true, beq_iff_eq] at hEq
    exact absurd hEq.2 h

/-- The song value produced by `PreserveUserSetData` before queuing: the
re-read song with the stored song's row id, the chosen art when it has no
embedded cover, and the stored song's user data merged in. -/
def psOut (image : String) (m o : Song) : Song :=
  MergeUserSetData
    (if !(Song.hasEmbeddedCover { o with id := m.id }) then
      { { o with id := m.id } with art_automatic := image }
    else { o with id := m.id }) m

theorem psOut_id (image : String) (m o : Song) : (psOut image m o).id = m.id := by
  simp [psOut, MergeUserSetData, apply_ite Song.id]

theorem psOut_cue_path (image : String) (m o : Song) :
    (psOut image m o).cue_path = o.cue_path := by
  simp [psOut, MergeUserSetData, apply_ite Song.cue_path]

theorem psOut_playcount (image : String) (m o : Song) :
    (psOut image m o).playcount = m.playcount := by
  simp [psOut, MergeUserSetData]

theorem psOut_skipcount (image : String) (m o : Song) :
    (psOut image m o).skipcount = m.skipcount := by
  simp [psOut, MergeUserSetData]

theorem psOut_lastplayed (image : String) (m o : Song) :
    (psOut image m o).lastplayed = m.lastplayed := by
  simp [psOut, MergeUserSetData]

theorem psOut_art_manual (image : String) (m o : Song) :
    (psOut image m o).art_manual = m.art_manual := by
  simp [psOut, MergeUserSetData]

/-- `PreserveUserSetData` in closed form: queue `psOut` as a new song when
the stored song was unavailable or the metadata differs, as a touched song
otherwise. -/
theorem PreserveUserSetData_eq (image : String) (m o : Song) (t : ScanTransaction) :
    PreserveUserSetData image m o t =
      (if m.unavailable || !(IsMetadataEqual m (psOut image m o)) then
        { t with new_songs := t.new_songs ++ [psOut image m o] }
      else { t with touched_songs := t.touched_songs ++ [psOut image m o] }) := by
  by_cases hu : m.unavailable <;>
    by_cases hm : IsMetadataEqual m (psOut image m o) <;>
    simp [PreserveUserSetData, psOut, hu, hm] <;>
    simp [psOut] at hm <;> simp [hm]

/-- The cue-deleted cleanup loop of `UpdateNonCueAssociatedSong`: it queues
exactly the stored sections whose metadata differs from the matching song,
leaving the rest of the transaction untouched. -/
theorem deleteSectionsFold (matching_song : Song) :
    ∀ (l : List Song) (t : ScanTransaction),
      l.foldl
        (fun t song =>
          if !(IsMetadataEqual song matching_song) then
            { t with deleted_songs := t.deleted_songs ++ [song] }
          else t)
        t =
      { t with deleted_songs :=
          t.deleted_songs ++ l.filter fun s => !(IsMetadataEqual s matching_song) } := by
  intro l
  induction l with
  | nil =>
    intro t
    simp
  | cons s rest ih =>
    intro t
    simp only [List.foldl_cons]
    by_cases h : IsMetadataEqual s matching_song
    · simp only [h, Bool.not_true, Bool.false_eq_true, if_false]
      rw [ih]
      simp [List.filter_cons, h]
    · have h' : IsMetadataEqual s matching_song = false := by simpa using h
      simp only [h', Bool.not_false, if_true]
      rw [ih]
      simp [List.filter_cons, h']

/-- C5: cue-removal downgrade.  For a stored song that had a cue sheet
(now deleted), `UpdateNonCueAssociatedSong` queues deletions for every
other stored section of the file (the kept section being the only one with
equal metadata), performs one direct tag re-read, and queues the re-read
song — carrying the kept section's database row id, an empty cue path and
the preserved user data — as an updated (new-songs) entry. -/
theorem cue_removal_downgrade (w : Watcher) (e : Env) (file image : String)
    (matching_song : Song) (t : ScanTransaction)
    (hcue : matching_song.hasCue = true)
    (hvalid : (e.readFile file).valid = true)
    (hnocue : (e.readFile file).cue_path = "")
    (hsec : ∀ s ∈ e.getSongsByUrl file,
      (IsMetadataEqual s matching_song = true ↔ s = matching_song)) :
    (UpdateNonCueAssociatedSong w e file matching_song image true t).1.deleted_songs =
      t.deleted_songs ++ (e.getSongsByUrl file).filter (fun s => !(s == matching_song)) ∧
    (UpdateNonCueAssociatedSong w e file matching_song image true t).2 =
      [Eff.readTags file] ∧
    ∃ out : Song,
      (UpdateNonCueAssociatedSong w e file matching_song image true t).1.new_songs =
        t.new_songs ++ [out] ∧
      out.id = matching_song.id ∧ out.cue_path = "" ∧
      out.playcount = matching_song.playcount ∧
      out.skipcount = matching_song.skipcount ∧
      out.lastplayed = matching_song.lastplayed ∧
      out.art_manual = matching_song.art_manual := by
  have hne : matching_song.cue_path ≠ "" :=
    strIsEmpty_false_ne matching_song.cue_path
      (by simpa [Song.hasCue] using hcue)
  have hfcong : (e.getSongsByUrl file).filter
      (fun s => !(IsMetadataEqual s matching_song)) =
      (e.getSongsByUrl file).filter (fun s => !(s == matching_song)) := by
    apply List.filter_congr
    intro s hs
    by_cases h : IsMetadataEqual s matching_song
    · have hs' : s = matching_song := (hsec s hs).mp h
      subst hs'
      simp [h]
    · have hs' : s ≠ matching_song := fun he => h ((hsec s hs).mpr he)
      have h' : IsMetadataEqual s matching_song = false := by simpa using h
      simp [h', beq_eq_false_iff_ne, hs']
  have hmeta : ∀ o : Song, o.cue_path = "" →
      IsMetadataEqual matching_song (psOut image matching_song o) = false := by
    intro o ho
    exact IsMetadataEqual_false_of_cue_ne _ _ (by simp [psOut_cue_path, ho, hne])
  simp only [UpdateNonCueAssociatedSong, if_true, deleteSectionsFold,
    PreserveUserSetData_eq]
  refine ⟨?_, ?_, ?_⟩
  · split
    next =>
      split
      next => simp [hfcong]
      next => simp [hfcong]
    next h => exact absurd hvalid h
  · trivial
  · split
    next =>
      split
      next =>
        refine ⟨psOut image matching_song
          { e.readFile file with source := w.source, directory_id := t.dir },
          by simp, psOut_id _ _ _, ?_, psOut_playcount _ _ _, psOut_skipcount _ _ _,
          psOut_lastplayed _ _ _, psOut_art_manual _ _ _⟩
        rw [psOut_cue_path]
        exact hnocue
      next h =>
        exfalso
        apply h
        simp [hmeta, hnocue]
    next h => exact absurd hvalid h

/-- Fixture: the stored kept section and a second stored section of the
same file, for the cue-removal witness. -/
def songC5kept : Song :=
  { valid := true, id := 42, url := "/m/a.flac", beginning := 0,
    cue_path := "/m/a.cue", meta := "k" }

def songC5other : Song :=
  { valid := true, id := 43, url := "/m/a.flac", beginning := 90,
    cue_path := "/m/a.cue", meta := "k" }

def tC5 : ScanTransaction :=
  { dir := 1, incremental := false, ignores_mtime := false, prevent_delete := false }

/-- Fixture environment for the cue-removal witness: the cue sheet is gone,
the file re-reads as a plain (cue-less) valid song. -/
def envC5 : Env :=
  { envC2 with
    readFile := fun p =>
      if p == "/m/a.flac" then { valid := true, url := "/m/a.flac", mtime := 40, meta := "tags" }
      else {},
    getSongsByUrl := fun u =>
      if u == "/m/a.flac" then [songC5kept, songC5other] else [] }

theorem cue_removal_downgrade_witness :
    (UpdateNonCueAssociatedSong {} envC5 "/m/a.flac" songC5kept "" true tC5).1.deleted_songs =
      tC5.deleted_songs ++
        (envC5.getSongsByUrl "/m/a.flac").filter (fun s => !(s == songC5kept)) ∧
    (UpdateNonCueAssociatedSong {} envC5 "/m/a.flac" songC5kept "" true tC5).2 =
      [Eff.readTags "/m/a.flac"] ∧
    ∃ out : Song,
      (UpdateNonCueAssociatedSong {} envC5 "/m/a.flac" songC5kept "" true tC5).1.new_songs =
        tC5.new_songs ++ [out] ∧
      out.id = songC5kept.id ∧ out.cue_path = "" ∧
      out.playcount = songC5kept.playcount ∧
      out.skipcount = songC5kept.skipcount ∧
      out.lastplayed = songC5kept.lastplayed ∧
      out.art_manual = songC5kept.art_manual :=
  cue_removal_downgrade {} envC5 "/m/a.flac" "" songC5kept tC5
    (by decide) (by decide) (by decide) (by decide)

/-- `GetMtimeForCue` of the empty cue path is 0. -/
theorem GetMtimeForCue_empty (e : Env) : GetMtimeForCue e "" = 0 := rfl

/-- `strIsEmpty` of the empty string. -/
theorem strIsEmpty_empty : strIsEmpty "" = true := rfl

set_option maxHeartbeats 1000000 in
/-- C3: deletion and un-delete round-trip.  Scenario A: a stored available
song whose file is absent from the just-listed (here: empty) directory is
queued in the deleted-songs batch, untouched in the readded- and new-songs
batches.  Scenario B: when the file is back on disk with unchanged mtime
and metadata and the stored song is marked unavailable, the next scan
queues that stored song in the readded-songs batch and not in the
new-songs batch (and not in the deleted-songs batch). -/
theorem deletion_readd_roundtrip
    (wA : Watcher) (eA : Env) (fuelA : Nat) (pathA : String) (sdA : Subdirectory)
    (tA : ScanTransaction) (song : Song) (dmA : Nat)
    (hAstop : wA.stop_requested = false) (hAlive : wA.live_scanning = false)
    (hAnm : eA.stat (pathA ++ "/.nomedia") = none)
    (hAnm2 : eA.stat (pathA ++ "/.nomusic") = none)
    (hAmt : sdA.mtime ≠ dmA)
    (hAkd : tA.known_subdirs_dirty = false) (hAks : tA.known_subdirs = [])
    (hAlist : eA.listing pathA = [])
    (hAcd : tA.cached_songs_dirty = false) (hAcs : tA.cached_songs = [song])
    (hAurl : sectionUpToLast '/' song.url = pathA)
    (hAun : song.unavailable = false)
    (hAsid : sdA.directory_id ≠ -1)
    (hAex : eA.stat pathA = some { isDir := true, mtime := dmA })
    (hAdm : dmA ≠ 0)
    (wB : Watcher) (eB : Env) (fuelB : Nat) (pathB : String) (sdB : Subdirectory)
    (tB : ScanTransaction) (song2 : Song) (file : String) (m dmB : Nat)
    (hBstop : wB.stop_requested = false) (hBlive : wB.live_scanning = false)
    (hBnm : eB.stat (pathB ++ "/.nomedia") = none)
    (hBnm2 : eB.stat (pathB ++ "/.nomusic") = none)
    (hBmt : sdB.mtime ≠ dmB)
    (hBkd : tB.known_subdirs_dirty = false) (hBks : tB.known_subdirs = [])
    (hBlist : eB.listing pathB = [file])
    (hBstatf : eB.stat file = some { mtime := m })
    (hBext : ExtensionPart file ∉ sValidImages)
    (hBcd : tB.cached_songs_dirty = false) (hBcs : tB.cached_songs = [song2])
    (hBurl : song2.url = file)
    (hBpar : sectionUpToLast '/' file = pathB)
    (hBun : song2.unavailable = true)
    (hBmtime : song2.mtime = m)
    (hBcue : song2.cue_path = "")
    (hBnocue : GetMtimeForCue eB (NoExtensionPart file ++ ".cue") = 0)
    (hBart : song2.art_automatic = "")
    (hBim : tB.ignores_mtime = false)
    (hBsid : sdB.directory_id ≠ -1)
    (hBstatP : eB.stat pathB = some { isDir := true, mtime := dmB })
    (hBdm : dmB ≠ 0) :
    ((ScanSubdirectory wA eA (fuelA + 1) pathA sdA tA false).1.deleted_songs =
       tA.deleted_songs ++ [song] ∧
     (ScanSubdirectory wA eA (fuelA + 1) pathA sdA tA false).1.readded_songs =
       tA.readded_songs ∧
     (ScanSubdirectory wA eA (fuelA + 1) pathA sdA tA false).1.new_songs =
       tA.new_songs) ∧
    ((ScanSubdirectory wB eB (fuelB + 1) pathB sdB tB false).1.readded_songs =
       tB.readded_songs ++ [song2] ∧
     (ScanSubdirectory wB eB (fuelB + 1) pathB sdB tB false).1.new_songs =
       tB.new_songs ∧
     (ScanSubdirectory wB eB (fuelB + 1) pathB sdB tB false).1.deleted_songs =
       tB.deleted_songs) := by
  constructor
  · simp [ScanSubdirectory, AddToProgress, AddToProgressMax, GetImmediateSubdirs,
      SetKnownSubdirs, FindSongsInSubdirectory, classifyChild, processFiles,
      fsExists, fsMtime, fsIsDir, fsIsHidden, fsIsSymLink,
      hAstop, hAlive, hAnm, hAnm2, hAmt, hAkd, hAks, hAlist, hAcd, hAcs,
      hAurl, hAun, hAsid, hAex, hAdm]
  · simp [ScanSubdirectory, AddToProgress, AddToProgressMax, GetImmediateSubdirs,
      SetKnownSubdirs, FindSongsInSubdirectory, classifyChild, processFiles,
      processFile, FindSongByPath, ImageForSong, aaLookup, Song.hasCue,
      GetMtimeForCue_empty, strIsEmpty_empty,
      fsExists, fsMtime, fsIsDir, fsIsHidden, fsIsSymLink,
      hBstop, hBlive, hBnm, hBnm2, hBmt, hBkd, hBks, hBlist, hBstatf,
      hBext, hBcd, hBcs, hBurl, hBpar, hBun, hBmtime, hBcue, hBnocue, hBart,
      hBim, hBsid, hBstatP, hBdm]
/-- Fixtures for the round-trip witness: scenario A (file gone). -/
def songC3A : Song := { valid := true, id := 7, url := "/m/a.mp3", mtime := 100 }

def envC3A : Env :=
  { envC2 with
    stat := fun p => if p == "/m" then some { isDir := true, mtime := 50 } else none,
    listing := fun _ => [] }

def tC3A : ScanTransaction :=
  { dir := 1, incremental := true, ignores_mtime := false, prevent_delete := false,
    cached_songs_dirty := false, cached_songs := [songC3A],
    known_subdirs_dirty := false }

def sdC3A : Subdirectory := { directory_id := 1, path := "/m", mtime := 49 }

/-- Fixtures for the round-trip witness: scenario B (file back, unchanged,
stored song unavailable). -/
def songC3B : Song :=
  { valid := true, id := 7, url := "/m/a.mp3", mtime := 100, unavailable := true }

def envC3B : Env :=
  { envC2 with
    stat := fun p =>
      if p == "/m" then some { isDir := true, mtime := 60 }
      else if p == "/m/a.mp3" then some { mtime := 100 }
      else none,
    listing := fun p => if p == "/m" then ["/m/a.mp3"] else [] }

def tC3B : ScanTransaction :=
  { dir := 1, incremental := true, ignores_mtime := false, prevent_delete := false,
    cached_songs_dirty := false, cached_songs := [songC3B],
    known_subdirs_dirty := false }

def sdC3B : Subdirectory := { directory_id := 1, path := "/m", mtime := 50 }

theorem deletion_readd_roundtrip_witness :
    ((ScanSubdirectory {} envC3A 1 "/m" sdC3A tC3A false).1.deleted_songs =
       tC3A.deleted_songs ++ [songC3A] ∧
     (ScanSubdirectory {} envC3A 1 "/m" sdC3A tC3A false).1.readded_songs =
       tC3A.readded_songs ∧
     (ScanSubdirectory {} envC3A 1 "/m" sdC3A tC3A false).1.new_songs =
       tC3A.new_songs) ∧
    ((ScanSubdirectory {} envC3B 1 "/m" sdC3B tC3B false).1.readded_songs =
       tC3B.readded_songs ++ [songC3B] ∧
     (ScanSubdirectory {} envC3B 1 "/m" sdC3B tC3B false).1.new_songs =
       tC3B.new_songs ∧
     (ScanSubdirectory {} envC3B 1 "/m" sdC3B tC3B false).1.deleted_songs =
       tC3B.deleted_songs) :=
  deletion_readd_roundtrip {} envC3A 0 "/m" sdC3A tC3A songC3A 50
    rfl rfl (by decide) (by decide) (by decide) rfl rfl (by decide) rfl rfl
    (by decide) rfl (by decide) (by decide) (by decide)
    {} envC3B 0 "/m" sdC3B tC3B songC3B "/m/a.mp3" 100 60
    rfl rfl (by decide) (by decide) (by decide) rfl rfl (by decide) (by decide)
    (by decide) rfl rfl rfl (by decide) rfl rfl rfl (by decide) rfl rfl
    (by decide) (by decide) (by decide)

set_option maxHeartbeats 1000000 in
/-- C9 (amended): a file present in the directory listing that no longer
exists when processed is dropped from the in-memory file set with no error
and no tag read; because it is gone from the file set, the stored song is
caught by this same pass's deleted-song diff and queued in this pass's
deleted-songs batch. -/
theorem file_vanished_dropped_and_deleted_this_pass
    (w : Watcher) (e : Env) (fuel : Nat) (path : String) (sd : Subdirectory)
    (t : ScanTransaction) (song : Song) (file : String) (dm : Nat)
    (hstop : w.stop_requested = false) (hlive : w.live_scanning = false)
    (hnm : e.stat (path ++ "/.nomedia") = none)
    (hnm2 : e.stat (path ++ "/.nomusic") = none)
    (hmt : sd.mtime ≠ dm)
    (hkd : t.known_subdirs_dirty = false) (hks : t.known_subdirs = [])
    (hlist : e.listing path = [file])
    (hstatf : e.stat file = none)
    (hext : ExtensionPart file ∉ sValidImages)
    (hcd : t.cached_songs_dirty = false) (hcs : t.cached_songs = [song])
    (hurl : song.url = file)
    (hpar : sectionUpToLast '/' file = path)
    (hun : song.unavailable = false)
    (hsid : sd.directory_id ≠ -1)
    (hex : e.stat path = some { isDir := true, mtime := dm })
    (hdm : dm ≠ 0) :
    (ScanSubdirectory w e (fuel + 1) path sd t false).1.deleted_songs =
      t.deleted_songs ++ [song] ∧
    (ScanSubdirectory w e (fuel + 1) path sd t false).1.new_songs = t.new_songs ∧
    (ScanSubdirectory w e (fuel + 1) path sd t false).1.readded_songs =
      t.readded_songs ∧
    (∀ f, Eff.readTags f ∉ (ScanSubdirectory w e (fuel + 1) path sd t false).2) := by
  simp [ScanSubdirectory, AddToProgress, AddToProgressMax, GetImmediateSubdirs,
    SetKnownSubdirs, FindSongsInSubdirectory, classifyChild, processFiles,
    processFile, FindSongByPath,
    fsExists, fsMtime, fsIsDir, fsIsHidden, fsIsSymLink,
    hstop, hlive, hnm, hnm2, hmt, hkd, hks, hlist, hstatf, hext, hcd, hcs,
    hurl, hpar, hun, hsid, hex, hdm]

/-- Fixtures for the vanished-file scenario: `/m/a.mp3` is in the listing
of `/m` but its stat fails; its stored song is available. -/
def songC9 : Song := { valid := true, id := 7, url := "/m/a.mp3", mtime := 100 }

def envC9 : Env :=
  { envC2 with
    stat := fun p => if p == "/m" then some { isDir := true, mtime := 50 } else none,
    listing := fun p => if p == "/m" then ["/m/a.mp3"] else [] }

def tC9 : ScanTransaction :=
  { dir := 1, incremental := true, ignores_mtime := false, prevent_delete := false,
    cached_songs_dirty := false, cached_songs := [songC9],
    known_subdirs_dirty := false }

def sdC9 : Subdirectory := { directory_id := 1, path := "/m", mtime := 49 }

/-- C9 counterexample: on this concrete vanished-file input the stored song
IS queued in this pass's deleted-songs batch, and the transaction's commit
emits it in this pass's deleted-songs event — contradicting the claim that
it is not emitted in this pass and only corrected on the next pass. -/
theorem file_vanished_counterexample :
    (ScanSubdirectory {} envC9 1 "/m" sdC9 tC9 false).1.deleted_songs = [songC9] ∧
    Eff.songsDeleted [songC9] ∈
      (scanTransactionEnd {} (ScanSubdirectory {} envC9 1 "/m" sdC9 tC9 false).1).2 := by
  decide

theorem file_vanished_dropped_and_deleted_this_pass_witness :
    (ScanSubdirectory {} envC9 1 "/m" sdC9 tC9 false).1.deleted_songs =
      tC9.deleted_songs ++ [songC9] ∧
    (ScanSubdirectory {} envC9 1 "/m" sdC9 tC9 false).1.new_songs = tC9.new_songs ∧
    (ScanSubdirectory {} envC9 1 "/m" sdC9 tC9 false).1.readded_songs =
      tC9.readded_songs ∧
    (∀ f, Eff.readTags f ∉ (ScanSubdirectory {} envC9 1 "/m" sdC9 tC9 false).2) :=
  file_vanished_dropped_and_deleted_this_pass {} envC9 0 "/m" sdC9 tC9 songC9
    "/m/a.mp3" 50 rfl rfl (by decide) (by decide) (by decide) rfl rfl (by decide)
    (by decide) (by decide) rfl rfl rfl (by decide) rfl (by decide) (by decide)
    (by decide)

end Strawberry
